import Mathlib

/-!
Verification development for the Quartr document retrieval-and-archival
pipeline (source: quartr-streamlit-app.py).  The Python source is shallowly
embedded: pure string manipulation becomes structural functions on character
lists, network and storage effects become explicit oracles in a `World`
record, exceptions become `Option`/`Except`-style error propagation, and the
Streamlit progress surface becomes an explicit list of counter snapshots and
emitted actions.
-/

namespace Quartr

/-! ## Part 1: the embedding.

Python string primitives are embedded structurally over `List Char`
because the core `String` library functions of this toolchain are defined
by well-founded recursion over byte positions and do not reduce inside the
kernel.  Python compares strings lexicographically by code point, as does
`Char` comparison in Lean. -/

/-- Python `a <= b` on strings: lexicographic comparison of character lists
by code point. -/
def charListLe : List Char → List Char → Bool
  | [], _ => true
  | _ :: _, [] => false
  | a :: as, b :: bs => if a = b then charListLe as bs else decide (a < b)

/-- Python `a <= b` on strings. -/
def strLe (s t : String) : Bool :=
  charListLe s.data t.data

/-- Python single-character `str.replace(old, new)`: every occurrence of the
character `old` is replaced by `new`. -/
def pyReplaceChar (s : String) (old new : Char) : String :=
  String.mk (s.data.map (fun c => if c = old then new else c))

/-- Python `str.lower()` on the ASCII strings the pipeline handles. -/
def pyLower (s : String) : String :=
  String.mk (s.data.map Char.toLower)

/-- Python `s.split(sep)[0]` for a single-character separator `sep`: the
prefix of `s` before the first occurrence of `sep`. -/
def pySplitHead (sep : Char) (s : String) : String :=
  String.mk (s.data.takeWhile (fun c => c ≠ sep))

/-- Python `s.split(sep)` for a single-character separator `sep`. -/
def splitOnChar (sep : Char) : List Char → List (List Char)
  | [] => [[]]
  | c :: cs =>
    if c = sep then [] :: splitOnChar sep cs
    else
      match splitOnChar sep cs with
      | [] => [[c]]
      | h :: t => (c :: h) :: t

/-- Python `s.split('/')[-1]`: the part after the last slash. -/
def pySplitSlashLast (s : String) : String :=
  String.mk ((splitOnChar '/' s.data).getLastD [])

/-- Prepend a character to the first piece of a split result. -/
def consHead (c : Char) : List (List Char) → List (List Char)
  | [] => [[c]]
  | h :: t => (c :: h) :: t

/-- Python `s.split(sep + sep)` specialised to the blank-line separator
used by the source, two consecutive newline characters: leftmost,
non-overlapping occurrences split the list. -/
def splitOnDoubleNewline : List Char → List (List Char)
  | [] => [[]]
  | [c] => [[c]]
  | c₁ :: c₂ :: cs =>
    if c₁ = '\n' ∧ c₂ = '\n' then [] :: splitOnDoubleNewline cs
    else consHead c₁ (splitOnDoubleNewline (c₂ :: cs))

/-- Python `str.strip()`: leading and trailing whitespace removed. -/
def pyStrip (s : String) : String :=
  String.mk (((s.data.dropWhile Char.isWhitespace).reverse.dropWhile
    Char.isWhitespace).reverse)

/-- Python `str.startswith(c)` for a single character. -/
def pyStartsWith (c : Char) (s : String) : Bool :=
  s.data.head? = some c

/-- Source line 214: `company_name.replace(" ", "_").replace("/", "_").lower()`. -/
def clean_company (company_name : String) : String :=
  pyLower (pyReplaceChar (pyReplaceChar company_name ' ' '_') '/' '_')

/-- Source lines 212-217: `format_s3_key(company_name, date, doc_type,
filename)` builds `clean_company/clean_date/doc_type/clean_filename` where
`clean_date = date.split("T")[0]` and
`clean_filename = filename.replace(" ", "_").lower()`. -/
def format_s3_key (company_name date doc_type filename : String) : String :=
  let cc := clean_company company_name
  let clean_date := pySplitHead 'T' date
  let clean_filename := pyLower (pyReplaceChar filename ' ' '_')
  cc ++ "/" ++ clean_date ++ "/" ++ doc_type ++ "/" ++ clean_filename

/-- Reading of the key algorithm taken from the words of the specification,
for comparison with the source function: path-unsafe characters are
*stripped* (removed) from the company segment rather than replaced. -/
def format_s3_key_specReading (company_name date doc_type filename : String) :
    String :=
  let cc := pyLower (pyReplaceChar
    (String.mk (company_name.data.filter (fun c => c ≠ '/'))) ' ' '_')
  let clean_date := pySplitHead 'T' date
  let clean_filename := pyLower (pyReplaceChar filename ' ' '_')
  cc ++ "/" ++ clean_date ++ "/" ++ doc_type ++ "/" ++ clean_filename

/-- An event payload as consumed by the source: every field is read with a
dynamic `.get`, so every field is optional.  A field holding the empty
string is distinct from an absent field, matching Python truthiness tests
in the source. -/
structure Event where
  eventDate : Option String
  eventTitle : Option String
  slidesUrl : Option String
  reportUrl : Option String
  transcriptUrl : Option String
deriving DecidableEq

/-- A company payload: `displayName` and `events` are read with `.get`. -/
structure Company where
  displayName : Option String
  events : List Event
deriving DecidableEq

/-- Source lines 250-251 and 268-269:
`event.get('eventDate', '').split('T')[0]`. -/
def truncatedEventDate (e : Event) : String :=
  pySplitHead 'T' (e.eventDate.getD "")

/-- Source lines 252 and 272: Python chained comparison
`start_date <= event_date <= end_date` on the truncated date. -/
def eventInRange (start_date end_date : String) (e : Event) : Bool :=
  strLe start_date (truncatedEventDate e) && strLe (truncatedEventDate e) end_date

/-- Source lines 254 and 274: `event.get(f'{doc_type}Url')` for the three
document categories offered by the form; any other key yields `None`. -/
def Event.docUrl (e : Event) (doc_type : String) : Option String :=
  if doc_type = "slides" then e.slidesUrl
  else if doc_type = "report" then e.reportUrl
  else if doc_type = "transcript" then e.transcriptUrl
  else none

/-- Python truthiness of the looked-up URL (`if event.get(f'{doc_type}Url')`
and `if file_url`): absent or empty means falsy. -/
def urlPresent : Option String → Bool
  | none => false
  | some s => s ≠ ""

/-- Outcome of `await response.json()` on a transcript fetch.  The aiohttp
client this source uses raises `ContentTypeError` when the response declares
a non-JSON content type, and the configured decoder raises
`json.JSONDecodeError` when the content type is JSON but the body does not
parse; on success the source reads
`transcript_data.get('transcript', {}).get('text', '')`, so `parsed` carries
that extracted text with the dynamic-lookup defaults already applied. -/
inductive JsonOutcome where
  | contentTypeError : JsonOutcome
  | decodeError : JsonOutcome
  | parsed (text : String) : JsonOutcome
deriving DecidableEq

/-- Response of the remote catalog to a transcript fetch.  `transportError`
models the GET itself raising before a status is available. -/
structure TranscriptResponse where
  transportError : Bool
  status : Nat
  json : JsonOutcome
deriving DecidableEq

/-- Response of the remote catalog to a binary document (slides or report)
fetch. -/
structure FileResponse where
  transportError : Bool
  status : Nat
  content : String
  contentType : Option String
deriving DecidableEq

/-- Every exception the embedded pipeline can let escape a unit.  Either one
reaches the run-level handler of `process_documents`, which surfaces it and
re-raises. -/
inductive PipelineExn where
  | contentTypeError (url : String)
  | transportError (url : String)
deriving DecidableEq

/-- The external world of one run: the remote catalog, keyed by URL or
identifier, and the object store, keyed by archive key.  Company fetch
failures are already folded into `fetchCompany` returning `none`, matching
`QuartrAPI.get_company_events` returning `{}` on any non-success or
transport failure (source lines 176-187).  `uploadOk` models
`S3Handler.upload_file` (source lines 197-210), which catches every failure
and reports `False`.  `uploadOk` is keyed by archive key and bucket
name. -/
structure World where
  fetchCompany : String → Option Company
  transcriptResp : String → TranscriptResponse
  fileResp : String → FileResponse
  uploadOk : String → String → Bool

/-- Source lines 73-83, value part: require status 200; on a JSON body,
return the extracted text; a `json.JSONDecodeError` is caught and yields the
empty string; a non-JSON content type raises `ContentTypeError`, which the
`except json.JSONDecodeError` clause does not catch, so it propagates; a
transport failure of the GET itself also propagates. -/
def process_transcript_result (w : World) (transcript_url : String) :
    Except PipelineExn String :=
  let r := w.transcriptResp transcript_url
  if r.transportError then .error (.transportError transcript_url)
  else if r.status = 200 then
    match r.json with
    | .contentTypeError => .error (.contentTypeError transcript_url)
    | .decodeError => .ok ""
    | .parsed text => .ok text
  else .ok ""

/-- Observable actions of a run, in emission order.  `selectionEntered`
marks control reaching the total-counting selection loop (source line 247),
`warn` is a surfaced `st.warning`/`st.error` message, and the remaining
constructors are the per-document effects. -/
inductive Action where
  | selectionEntered : Action
  | fetchTranscript (url : String)
  | fetchFile (url : String)
  | render (company_name event_title event_date : String)
  | upload (s3_key : String)
  | warn (msg : String)
deriving DecidableEq

/-- The transcript processor with its request trace: it issues exactly one
GET, to the URL it was given. -/
def process_transcript (w : World) (transcript_url : String) :
    List Action × Except PipelineExn String :=
  ([Action.fetchTranscript transcript_url], process_transcript_result w transcript_url)

inductive StyleName where
  | header : StyleName
  | speaker : StyleName
  | body : StyleName
deriving DecidableEq

inductive Flowable where
  | para (style : StyleName) (text : String)
  | spacer (w h : Nat)
deriving DecidableEq

/-- Source lines 146-153: the centered header markup block, with the layout
whitespace of the f-string elided. -/
def headerText (company_name event_title event_date : String) : String :=
  "<b>" ++ company_name ++ "</b> Event: " ++ event_title ++
    " Date: " ++ event_date

/-- Source line 158: `transcript_text.strip().split('\n\n')`. -/
def paragraphsOf (transcript_text : String) : List String :=
  (splitOnDoubleNewline (pyStrip transcript_text).data).map String.mk

/-- Source lines 143-167: header paragraph and spacer, then one paragraph
per non-blank text unit, in speaker style when the stripped text opens with
a bracket and in body style otherwise, each followed by a fixed spacer. -/
def create_pdf_story (company_name event_title event_date transcript_text : String) :
    List Flowable :=
  (paragraphsOf transcript_text).foldl
    (fun story para =>
      if pyStrip para ≠ "" then
        story ++ [Flowable.para
            (if pyStartsWith '[' (pyStrip para) then StyleName.speaker else StyleName.body)
            para,
          Flowable.spacer 1 6]
      else story)
    [Flowable.para StyleName.header (headerText company_name event_title event_date),
      Flowable.spacer 1 30]

structure LogoImage where
  width : ℚ
  height : ℚ
deriving DecidableEq

/-- One `drawOn` of the logo on the canvas: fill alpha and the rectangle it
is painted into. -/
structure DrawOp where
  opacity : ℚ
  x : ℚ
  y : ℚ
  w : ℚ
  h : ℚ
deriving DecidableEq

def letterWidth : ℚ := 612

def letterHeight : ℚ := 792

/-- Source line 52: `max_width = 3 * inch` with `inch = 72`. -/
def maxLogoWidth : ℚ := 216

/-- Source lines 39-69: with a logo configured, compute the aspect from the
intrinsic dimensions, shrink to the maximum width only when the image is
wider, and draw centered on the letter page at the configured alpha. -/
def handle_nextPage (logo_data : Option LogoImage) (logo_opacity : ℚ) :
    List DrawOp :=
  match logo_data with
  | none => []
  | some img =>
    let aspect := img.height / img.width
    let w := if img.width > maxLogoWidth then maxLogoWidth else img.width
    let h := if img.width > maxLogoWidth then maxLogoWidth * aspect else img.height
    [{ opacity := logo_opacity,
       x := letterWidth / 2 - w / 2,
       y := letterHeight / 2 - h / 2,
       w := w, h := h }]

/-- Modelled from the spec: the page-layout engine is an external
collaborator specified only at its interface boundary, and the
specification states that the page hook runs identically on every page
emission, including the first.  A build of `pageCount` pages therefore
invokes `handle_nextPage` once per emitted page. -/
def buildPages (pageCount : Nat) (logo_data : Option LogoImage)
    (logo_opacity : ℚ) : List (List DrawOp) :=
  List.replicate pageCount (handle_nextPage logo_data logo_opacity)

/-- Source line 297: the transcript upload filename,
`f"{event_title.lower().replace(' ', '_')}_transcript.pdf"`. -/
def transcriptPdfFilename (event_title : String) : String :=
  pyReplaceChar (pyLower event_title) ' ' '_' ++ "_transcript.pdf"

/-- The run counters as displayed after one unit (source lines 328-335). -/
structure Snapshot where
  processed : Nat
  succeeded : Nat
  failed : Nat
deriving DecidableEq

/-- Mutable orchestrator state: the counters, the per-unit counter
snapshots in emission order, and the trace of effects so far. -/
structure PState where
  processed : Nat
  succeeded : Nat
  failed : Nat
  snapshots : List Snapshot
  trace : List Action
deriving DecidableEq

/-- One selected document unit, the body of the `if file_url:` block
(source lines 276-321): a transcript is fetched and, when the text is
non-empty, rendered and uploaded under its archive key; slides and reports
are fetched directly and uploaded on a 200 status; in each path the first
component is the emitted effect trace and the second is the upload outcome,
or the exception that escaped the unit. -/
def processDoc (w : World) (bucket_name company_name event_title event_date doc_type file_url : String) :
    List Action × Except PipelineExn Bool :=
  if doc_type = "transcript" then
    match process_transcript_result w file_url with
    | .error e => ([Action.fetchTranscript file_url], .error e)
    | .ok transcript_text =>
      if transcript_text ≠ "" then
        let s3_key := format_s3_key company_name event_date doc_type
          (transcriptPdfFilename event_title)
        ([Action.fetchTranscript file_url,
          Action.render company_name event_title event_date,
          Action.upload s3_key],
         .ok (w.uploadOk s3_key bucket_name))
      else ([Action.fetchTranscript file_url], .ok false)
  else
    let r := w.fileResp file_url
    if r.transportError then
      ([Action.fetchFile file_url], .error (.transportError file_url))
    else if r.status = 200 then
      let s3_key := format_s3_key company_name event_date doc_type
        (pySplitSlashLast file_url)
      ([Action.fetchFile file_url, Action.upload s3_key],
       .ok (w.uploadOk s3_key bucket_name))
    else ([Action.fetchFile file_url], .ok false)

/-- Source lines 323-335: one of the success or failure counters and the
processed counter are incremented, and a fresh progress snapshot is
emitted. -/
def recordUnit (s : PState) (success : Bool) (acts : List Action) : PState :=
  let succeeded := s.succeeded + (if success then 1 else 0)
  let failed := s.failed + (if success then 0 else 1)
  let processed := s.processed + 1
  { processed := processed, succeeded := succeeded, failed := failed,
    snapshots := s.snapshots ++ [⟨processed, succeeded, failed⟩],
    trace := s.trace ++ acts }

/-- One unit end to end: an exception escaping the unit carries the partial
trace upward and aborts; otherwise the counters advance. -/
def runUnit (w : World) (bucket_name company_name event_title event_date doc_type file_url : String)
    (s : PState) : PState × Option PipelineExn :=
  match processDoc w bucket_name company_name event_title event_date doc_type file_url with
  | (acts, .error e) => ({ s with trace := s.trace ++ acts }, some e)
  | (acts, .ok success) => (recordUnit s success acts, none)

/-- Source lines 273-337: the per-category step inside a selected event;
categories without a truthy URL produce no unit. -/
def docStep (w : World) (bucket_name company_name event_title event_date : String) (e : Event)
    (s : PState) (doc_type : String) : PState × Option PipelineExn :=
  match e.docUrl doc_type with
  | some file_url =>
    if file_url ≠ "" then
      runUnit w bucket_name company_name event_title event_date doc_type file_url s
    else (s, none)
  | none => (s, none)

/-- Sequential iteration that stops at the first escaping exception,
mirroring an uncaught Python exception leaving the loop: the state reached
so far is retained for observation. -/
def foldStop {α : Type} (f : PState → α → PState × Option PipelineExn) :
    PState → List α → PState × Option PipelineExn
  | s, [] => (s, none)
  | s, a :: as =>
    match f s a with
    | (s', none) => foldStop f s' as
    | (s', some e) => (s', some e)

/-- Source lines 268-337: one event of a company; events outside the date
range produce no unit. -/
def processEvent (w : World) (bucket_name company_name start_date end_date : String)
    (selected_docs : List String) (e : Event) (s : PState) :
    PState × Option PipelineExn :=
  if eventInRange start_date end_date e then
    foldStop
      (docStep w bucket_name company_name (e.eventTitle.getD "Unknown Event")
        (truncatedEventDate e) e)
      s selected_docs
  else (s, none)

/-- Source lines 262-337: one fetched company; a falsy (failed) fetch is
skipped, and the display name falls back to the string used by
`company.get('displayName', 'unknown')`. -/
def processCompany (w : World) (bucket_name start_date end_date : String)
    (selected_docs : List String) (s : PState) (company : Option Company) :
    PState × Option PipelineExn :=
  match company with
  | none => (s, none)
  | some c =>
    foldStop
      (fun s e => processEvent w bucket_name (c.displayName.getD "unknown")
        start_date end_date selected_docs e s)
      s c.events

/-- Units contributed by one event: zero outside the range, otherwise one
per requested category holding a truthy URL. -/
def countEvent (start_date end_date : String) (selected_docs : List String)
    (e : Event) : Nat :=
  if eventInRange start_date end_date e then
    (selected_docs.filter (fun doc_type => urlPresent (e.docUrl doc_type))).length
  else 0

def countCompany (start_date end_date : String) (selected_docs : List String) :
    Option Company → Nat
  | none => 0
  | some c => (c.events.map (countEvent start_date end_date selected_docs)).sum

def countTotal (start_date end_date : String) (selected_docs : List String)
    (companies_data : List (Option Company)) : Nat :=
  (companies_data.map (countCompany start_date end_date selected_docs)).sum

inductive Outcome where
  | noMatching : Outcome
  | completed : Outcome
  | aborted (e : PipelineExn) : Outcome
deriving DecidableEq

/-- Source line 258. -/
def noMatchingMsg : String := "No matching documents found for the specified criteria."

structure RunResult where
  outcome : Outcome
  total : Nat
  processed : Nat
  succeeded : Nat
  failed : Nat
  snapshots : List Snapshot
  trace : List Action
deriving DecidableEq

/-- Source lines 219-352: fetch company metadata for every identifier,
enter the selection loop to count the total, return early with a warning
when nothing matched, otherwise process every selected unit in order; an
exception escaping the processing loop reaches the run-level handler,
which surfaces it and re-raises (the `aborted` outcome).  The counters kept
in local variables are retained in the result for observation. -/
def process_documents (w : World) (isin_list : List String)
    (start_date end_date : String) (selected_docs : List String)
    (bucket_name : String) : RunResult :=
  let companies_data := isin_list.map w.fetchCompany
  let total_files := countTotal start_date end_date selected_docs companies_data
  if total_files = 0 then
    { outcome := .noMatching, total := total_files, processed := 0, succeeded := 0,
      failed := 0, snapshots := [],
      trace := [Action.selectionEntered, Action.warn noMatchingMsg] }
  else
    let init : PState := ⟨0, 0, 0, [], [Action.selectionEntered]⟩
    match foldStop (processCompany w bucket_name start_date end_date selected_docs)
        init companies_data with
    | (s, none) =>
      { outcome := .completed, total := total_files, processed := s.processed,
        succeeded := s.succeeded, failed := s.failed, snapshots := s.snapshots,
        trace := s.trace }
    | (s, some e) =>
      { outcome := .aborted e, total := total_files, processed := s.processed,
        succeeded := s.succeeded, failed := s.failed, snapshots := s.snapshots,
        trace := s.trace }

/-- Well-formedness of the orchestrator state: the counters balance and
every emitted snapshot balanced at its emission time and never exceeds the
current processed count. -/
def StateOk (s : PState) : Prop :=
  s.succeeded + s.failed = s.processed
  ∧ ∀ x ∈ s.snapshots, x.succeeded + x.failed = x.processed ∧ x.processed ≤ s.processed

/-- Contract of one loop step with respect to a unit count: `processed`
advances by at most the count, by exactly the count when no exception
escapes, never decreases, and well-formedness is preserved. -/
def StepBound {α : Type} (f : PState → α → PState × Option PipelineExn)
    (cnt : α → Nat) : Prop :=
  ∀ s a,
    (f s a).1.processed ≤ s.processed + cnt a
    ∧ ((f s a).2 = none → (f s a).1.processed = s.processed + cnt a)
    ∧ s.processed ≤ (f s a).1.processed
    ∧ (StateOk s → StateOk (f s a).1)

/-- Unit count contributed by one category of one event. -/
def docCnt (e : Event) (doc_type : String) : Nat :=
  if urlPresent (e.docUrl doc_type) then 1 else 0

/-- Concrete run used to instantiate C1 at the completed outcome. -/
def sampleEventC1 : Event :=
  { eventDate := some "2024-05-01T10:00:00", eventTitle := some "Q1 Call",
    slidesUrl := some "https://cdn/x/deck.pdf", reportUrl := none,
    transcriptUrl := none }

def sampleWorldC1 : World :=
  { fetchCompany := fun _ => some { displayName := some "Acme", events := [sampleEventC1] },
    transcriptResp := fun _ => ⟨false, 404, JsonOutcome.decodeError⟩,
    fileResp := fun _ => ⟨false, 200, "PDFBYTES", some "application/pdf"⟩,
    uploadOk := fun _ _ => true }

/-- Event for C2: one selected transcript unit. -/
def sampleEventC2 : Event :=
  { eventDate := some "2024-05-01T10:00:00", eventTitle := some "Q1 Call",
    slidesUrl := none, reportUrl := none,
    transcriptUrl := some "https://api/t/1" }

/-- World for C2: the single selected transcript unit answers 200 with a
non-JSON content type. -/
def sampleWorldC2 : World :=
  { fetchCompany := fun _ => some { displayName := some "Acme", events := [sampleEventC2] },
    transcriptResp := fun _ => ⟨false, 200, JsonOutcome.contentTypeError⟩,
    fileResp := fun _ => ⟨false, 404, "", none⟩,
    uploadOk := fun _ _ => true }

/-- World for C3: the given transcript URL parses but carries no
`transcript.text`, while the auxiliary "transcripts" resource next to it
would have answered with raw text had it ever been requested. -/
def sampleWorldC3 : World :=
  { fetchCompany := fun _ => none,
    transcriptResp := fun url =>
      if url = "https://api/events/1/liveTranscript" then
        ⟨false, 200, JsonOutcome.parsed ""⟩
      else if url = "https://api/events/1/liveTranscript/transcripts" then
        ⟨false, 200, JsonOutcome.parsed "raw transcript text"⟩
      else ⟨false, 404, JsonOutcome.decodeError⟩,
    fileResp := fun _ => ⟨false, 404, "", none⟩,
    uploadOk := fun _ _ => true }

def sampleLogo : LogoImage := ⟨300, 100⟩

def sampleEventC6 : Event := ⟨some "2024-01-01T06:00:00", none, none, none, none⟩

/-- World for C7: every identifier fetch fails and yields the empty
payload. -/
def sampleWorldC7 : World :=
  { fetchCompany := fun _ => none,
    transcriptResp := fun _ => ⟨false, 404, JsonOutcome.decodeError⟩,
    fileResp := fun _ => ⟨false, 404, "", none⟩,
    uploadOk := fun _ _ => true }

/-- The texts of the non-header paragraphs of a story, in order. -/
def paraTexts (story : List Flowable) : List String :=
  story.filterMap (fun f =>
    match f with
    | Flowable.para StyleName.header _ => none
    | Flowable.para _ t => some t
    | Flowable.spacer _ _ => none)

def sampleEventC9 : Event := ⟨none, some "Call", some "https://cdn/deck.pdf", none, none⟩

def sampleEventC10 : Event :=
  ⟨some "2024-05-01T00:00:00", none, none, none, some "https://t10"⟩

def sampleCompanyC10 : Company := ⟨none, [sampleEventC10]⟩

def sampleWorldC10 : World :=
  { fetchCompany := fun _ => some sampleCompanyC10,
    transcriptResp := fun _ => ⟨false, 200, JsonOutcome.parsed "Hello world"⟩,
    fileResp := fun _ => ⟨false, 404, "", none⟩,
    uploadOk := fun _ _ => true }

/-! ## Part 2: theorems.

First the facts about the embedded comparison and the loop invariants,
then the claim theorems with their witnesses and counterexamples. -/

theorem charListLe_iff : ∀ (l₁ l₂ : List Char), charListLe l₁ l₂ = true ↔ l₁ ≤ l₂
  | [], l₂ => by
    simp [charListLe, List.nil_le]
  | a :: as, [] => by
    simp only [charListLe]
    exact iff_of_false (by simp) (not_le.mpr (List.nil_lt_cons a as))
  | a :: as, b :: bs => by
    by_cases hab : a = b
    · subst hab
      rw [charListLe, if_pos rfl, charListLe_iff as bs]
      constructor
      · intro h
        exact List.cons_le_cons a h
      · intro h
        by_contra hnot
        rw [not_le] at hnot
        exact absurd h (not_le.mpr (List.Lex.cons hnot))
    · rw [charListLe, if_neg hab, decide_eq_true_iff]
      constructor
      · intro hlt
        rw [← not_lt]
        intro hltL
        cases hltL with
        | cons h => exact hab rfl
        | rel h => exact absurd h (asymm hlt)
      · intro hle
        rcases lt_trichotomy a b with h | h | h
        · exact h
        · exact absurd h hab
        · exact absurd hle (not_le.mpr (List.Lex.rel h))

theorem strLe_iff (s t : String) : strLe s t = true ↔ s ≤ t := by
  rw [String.le_iff_toList_le]
  exact charListLe_iff s.data t.data

theorem strLe_empty_right (s : String) (h : s ≠ "") : strLe s "" = false := by
  cases hd : s.data with
  | nil =>
    exact absurd (by cases s with | mk d => cases hd; rfl) h
  | cons c cs =>
    simp only [strLe, hd]
    rfl

theorem foldStop_bound {α : Type} (f : PState → α → PState × Option PipelineExn)
    (cnt : α → Nat) (hf : StepBound f cnt) :
    ∀ (l : List α) (s : PState),
      (foldStop f s l).1.processed ≤ s.processed + (l.map cnt).sum
      ∧ ((foldStop f s l).2 = none →
          (foldStop f s l).1.processed = s.processed + (l.map cnt).sum)
      ∧ s.processed ≤ (foldStop f s l).1.processed
      ∧ (StateOk s → StateOk (foldStop f s l).1)
  | [], s => by
    simp [foldStop]
  | a :: as, s => by
    obtain ⟨h1, h2, h3, h4⟩ := hf s a
    cases hfa : f s a with
    | mk s' eOpt =>
      rw [hfa] at h1 h2 h3 h4
      dsimp only at h1 h2 h3 h4
      cases eOpt with
      | none =>
        obtain ⟨g1, g2, g3, g4⟩ := foldStop_bound f cnt hf as s'
        have h2' := h2 rfl
        simp only [foldStop, hfa, List.map_cons, List.sum_cons]
        refine ⟨by omega, fun hnone => ?_, le_trans h3 g3, fun hok => g4 (h4 hok)⟩
        have := g2 hnone
        omega
      | some e =>
        simp only [foldStop, hfa, List.map_cons, List.sum_cons]
        refine ⟨by omega, fun hnone => absurd hnone (by simp), h3, h4⟩

theorem recordUnit_stateOk (s : PState) (success : Bool) (acts : List Action)
    (h : StateOk s) : StateOk (recordUnit s success acts) := by
  obtain ⟨hb, hs⟩ := h
  constructor
  · simp only [recordUnit]
    cases success <;> simp <;> omega
  · intro x hx
    simp only [recordUnit, List.mem_append, List.mem_singleton] at hx
    rcases hx with hx | hx
    · obtain ⟨hx1, hx2⟩ := hs x hx
      refine ⟨hx1, ?_⟩
      simp only [recordUnit]
      omega
    · subst hx
      simp only [recordUnit]
      refine ⟨?_, le_refl _⟩
      cases success <;> simp <;> omega

theorem docStep_bound (w : World)
    (bucket_name company_name event_title event_date : String) (e : Event) :
    StepBound (docStep w bucket_name company_name event_title event_date e)
      (docCnt e) := by
  intro s doc_type
  simp only [docStep, docCnt]
  cases hu : e.docUrl doc_type with
  | none =>
    simp [urlPresent]
  | some file_url =>
    by_cases hne : file_url = ""
    · subst hne
      simp [urlPresent]
    · dsimp only [urlPresent]
      rw [if_pos hne, if_pos (decide_eq_true hne)]
      simp only [runUnit]
      cases hpd : processDoc w bucket_name company_name event_title event_date
          doc_type file_url with
      | mk acts res =>
        cases res with
        | error eArg =>
          dsimp only
          refine ⟨Nat.le_add_right _ _, fun hnone => absurd hnone (by simp),
            le_refl _, fun hok => hok⟩
        | ok success =>
          dsimp only
          refine ⟨?_, fun _ => ?_, ?_, fun hok => recordUnit_stateOk s success acts hok⟩
          · simp [recordUnit]
          · simp [recordUnit]
          · simp [recordUnit]

theorem length_filter_eq_sum_map {α : Type} (p : α → Bool) (l : List α) :
    (l.filter p).length = (l.map (fun a => if p a then 1 else 0)).sum := by
  induction l with
  | nil => rfl
  | cons a l ih =>
    cases hp : p a with
    | false => simp [List.filter_cons, hp, ih]
    | true =>
      simp only [List.filter_cons, hp, if_true, List.length_cons, List.map_cons,
        List.sum_cons, ih]
      omega

theorem processEvent_bound (w : World)
    (bucket_name company_name start_date end_date : String)
    (selected_docs : List String) :
    StepBound
      (fun s e => processEvent w bucket_name company_name start_date end_date
        selected_docs e s)
      (countEvent start_date end_date selected_docs) := by
  intro s e
  simp only [processEvent, countEvent]
  by_cases hr : eventInRange start_date end_date e
  · rw [if_pos hr, if_pos hr]
    have hsum : (selected_docs.filter (fun doc_type => urlPresent (e.docUrl doc_type))).length
        = (selected_docs.map (docCnt e)).sum := by
      rw [length_filter_eq_sum_map]
      rfl
    rw [hsum]
    exact foldStop_bound _ _
      (docStep_bound w bucket_name company_name (e.eventTitle.getD "Unknown Event")
        (truncatedEventDate e) e)
      selected_docs s
  · rw [if_neg hr, if_neg hr]
    simp

theorem processCompany_bound (w : World) (bucket_name start_date end_date : String)
    (selected_docs : List String) :
    StepBound (processCompany w bucket_name start_date end_date selected_docs)
      (countCompany start_date end_date selected_docs) := by
  intro s c
  cases c with
  | none =>
    simp [processCompany, countCompany]
  | some c =>
    simp only [processCompany, countCompany]
    exact foldStop_bound _ _
      (processEvent_bound w bucket_name (c.displayName.getD "unknown")
        start_date end_date selected_docs)
      c.events s

/-- C1.  For every run, the counters balance after every processed unit
(`succeeded + failed = processed` in every emitted snapshot) and never
exceed the total; the reported total is exactly the phase-one count over the
fetched data, fixed before processing and never recomputed; and at the
completed outcome (which requires `total > 0`)
`succeeded + failed = processed = total`. -/
theorem process_documents_counters (w : World) (isin_list : List String)
    (start_date end_date : String) (selected_docs : List String)
    (bucket_name : String) :
    (∀ x ∈ (process_documents w isin_list start_date end_date selected_docs bucket_name).snapshots,
        x.succeeded + x.failed = x.processed
        ∧ x.processed ≤ (process_documents w isin_list start_date end_date selected_docs bucket_name).total)
    ∧ (process_documents w isin_list start_date end_date selected_docs bucket_name).succeeded
        + (process_documents w isin_list start_date end_date selected_docs bucket_name).failed
        = (process_documents w isin_list start_date end_date selected_docs bucket_name).processed
    ∧ (process_documents w isin_list start_date end_date selected_docs bucket_name).processed
        ≤ (process_documents w isin_list start_date end_date selected_docs bucket_name).total
    ∧ (process_documents w isin_list start_date end_date selected_docs bucket_name).total
        = countTotal start_date end_date selected_docs (isin_list.map w.fetchCompany)
    ∧ ((process_documents w isin_list start_date end_date selected_docs bucket_name).outcome
          = Outcome.completed →
        0 < (process_documents w isin_list start_date end_date selected_docs bucket_name).total
        ∧ (process_documents w isin_list start_date end_date selected_docs bucket_name).processed
            = (process_documents w isin_list start_date end_date selected_docs bucket_name).total
        ∧ (process_documents w isin_list start_date end_date selected_docs bucket_name).succeeded
            + (process_documents w isin_list start_date end_date selected_docs bucket_name).failed
            = (process_documents w isin_list start_date end_date selected_docs bucket_name).total) := by
  simp only [process_documents]
  by_cases h0 : countTotal start_date end_date selected_docs (isin_list.map w.fetchCompany) = 0
  · rw [if_pos h0]
    simp [h0]
  · rw [if_neg h0]
    obtain ⟨g1, g2, g3, g4⟩ := foldStop_bound _ _
      (processCompany_bound w bucket_name start_date end_date selected_docs)
      (isin_list.map w.fetchCompany) ⟨0, 0, 0, [], [Action.selectionEntered]⟩
    have hok : StateOk (⟨0, 0, 0, [], [Action.selectionEntered]⟩ : PState) :=
      ⟨rfl, by simp⟩
    cases hfs : foldStop (processCompany w bucket_name start_date end_date selected_docs)
        ⟨0, 0, 0, [], [Action.selectionEntered]⟩ (isin_list.map w.fetchCompany) with
    | mk sFin eOpt =>
      rw [hfs] at g1 g2 g3 g4
      dsimp only at g1 g2 g3 g4
      have hct : ((isin_list.map w.fetchCompany).map
          (countCompany start_date end_date selected_docs)).sum
          = countTotal start_date end_date selected_docs (isin_list.map w.fetchCompany) := rfl
      rw [hct] at g1 g2
      obtain ⟨gb, gs⟩ := g4 hok
      cases eOpt with
      | none =>
        have g2' := g2 rfl
        dsimp only
        refine ⟨fun x hx => ?_, gb, by omega, by omega, fun _ => ⟨by omega, by omega, by omega⟩⟩
        obtain ⟨hx1, hx2⟩ := gs x hx
        exact ⟨hx1, by omega⟩
      | some e =>
        dsimp only
        refine ⟨fun x hx => ?_, gb, by omega, by omega, fun hc => absurd hc (by simp)⟩
        obtain ⟨hx1, hx2⟩ := gs x hx
        exact ⟨hx1, by omega⟩

theorem process_documents_counters_witness :
    (process_documents sampleWorldC1 ["US1"] "2024-01-01" "2024-12-31" ["slides"] "bkt").outcome
      = Outcome.completed
    ∧ (0 < (process_documents sampleWorldC1 ["US1"] "2024-01-01" "2024-12-31" ["slides"] "bkt").total
      ∧ (process_documents sampleWorldC1 ["US1"] "2024-01-01" "2024-12-31" ["slides"] "bkt").processed
          = (process_documents sampleWorldC1 ["US1"] "2024-01-01" "2024-12-31" ["slides"] "bkt").total
      ∧ (process_documents sampleWorldC1 ["US1"] "2024-01-01" "2024-12-31" ["slides"] "bkt").succeeded
          + (process_documents sampleWorldC1 ["US1"] "2024-01-01" "2024-12-31" ["slides"] "bkt").failed
          = (process_documents sampleWorldC1 ["US1"] "2024-01-01" "2024-12-31" ["slides"] "bkt").total) :=
  ⟨by decide,
    (process_documents_counters sampleWorldC1 ["US1"] "2024-01-01" "2024-12-31"
      ["slides"] "bkt").2.2.2.2 (by decide)⟩

/-- C2.  A transcript fetch answering 200 with a non-JSON content type does
not abort only that unit: the `except json.JSONDecodeError` clause does not
catch the content-type exception, so it escapes the unit, the run-level
handler re-raises, and the whole run aborts with the unit never counted as
failed (`processed = failed = 0` despite `total = 1`). -/
theorem transcript_contentType_aborts_run :
    (process_documents sampleWorldC2 ["US1"] "2024-01-01" "2024-12-31"
        ["transcript"] "bkt").outcome
      = Outcome.aborted (PipelineExn.contentTypeError "https://api/t/1")
    ∧ (process_documents sampleWorldC2 ["US1"] "2024-01-01" "2024-12-31"
        ["transcript"] "bkt").total = 1
    ∧ (process_documents sampleWorldC2 ["US1"] "2024-01-01" "2024-12-31"
        ["transcript"] "bkt").processed = 0
    ∧ (process_documents sampleWorldC2 ["US1"] "2024-01-01" "2024-12-31"
        ["transcript"] "bkt").failed = 0 := by
  decide

/-- C3 counterexample: the renderer issues exactly one request, to the URL
it was given, and never touches the auxiliary "transcripts" resource even
when that resource is available and the direct fetch yields no text; the
unit simply ends with the empty result. -/
theorem transcript_indirection_counterexample :
    (process_transcript sampleWorldC3 "https://api/events/1/liveTranscript").1
      = [Action.fetchTranscript "https://api/events/1/liveTranscript"]
    ∧ Action.fetchTranscript "https://api/events/1/liveTranscript/transcripts"
        ∉ (process_transcript sampleWorldC3 "https://api/events/1/liveTranscript").1
    ∧ (process_transcript sampleWorldC3 "https://api/events/1/liveTranscript").2
        = Except.ok ""
    ∧ (sampleWorldC3.transcriptResp
        "https://api/events/1/liveTranscript/transcripts").json
      = JsonOutcome.parsed "raw transcript text" := by
  refine ⟨rfl, by decide, rfl, rfl⟩

/-- C3 amended: the renderer performs no indirection request at all (its
request trace is exactly the given URL), and a transcript unit whose fetch
yields empty text is counted as failed, with no upload action and no
escaping exception. -/
theorem transcript_no_indirection (w : World) (transcript_url : String)
    (bucket_name company_name event_title event_date : String) (s : PState)
    (hempty : (process_transcript w transcript_url).2 = Except.ok "") :
    (process_transcript w transcript_url).1
      = [Action.fetchTranscript transcript_url]
    ∧ (runUnit w bucket_name company_name event_title event_date "transcript"
        transcript_url s).2 = none
    ∧ (runUnit w bucket_name company_name event_title event_date "transcript"
        transcript_url s).1.failed = s.failed + 1
    ∧ (runUnit w bucket_name company_name event_title event_date "transcript"
        transcript_url s).1.succeeded = s.succeeded
    ∧ (runUnit w bucket_name company_name event_title event_date "transcript"
        transcript_url s).1.processed = s.processed + 1
    ∧ (runUnit w bucket_name company_name event_title event_date "transcript"
        transcript_url s).1.trace
      = s.trace ++ [Action.fetchTranscript transcript_url] := by
  simp only [process_transcript] at hempty
  refine ⟨rfl, ?_, ?_, ?_, ?_, ?_⟩ <;>
    simp [runUnit, processDoc, hempty, recordUnit]

theorem transcript_no_indirection_witness :
    (process_transcript sampleWorldC3 "https://api/events/1/liveTranscript").2
        = Except.ok ""
    ∧ ((process_transcript sampleWorldC3 "https://api/events/1/liveTranscript").1
        = [Action.fetchTranscript "https://api/events/1/liveTranscript"]
      ∧ (runUnit sampleWorldC3 "bkt" "Acme" "Q1 Call" "2024-05-01" "transcript"
          "https://api/events/1/liveTranscript" ⟨0, 0, 0, [], []⟩).2 = none
      ∧ (runUnit sampleWorldC3 "bkt" "Acme" "Q1 Call" "2024-05-01" "transcript"
          "https://api/events/1/liveTranscript" ⟨0, 0, 0, [], []⟩).1.failed
          = (⟨0, 0, 0, [], []⟩ : PState).failed + 1
      ∧ (runUnit sampleWorldC3 "bkt" "Acme" "Q1 Call" "2024-05-01" "transcript"
          "https://api/events/1/liveTranscript" ⟨0, 0, 0, [], []⟩).1.succeeded
          = (⟨0, 0, 0, [], []⟩ : PState).succeeded
      ∧ (runUnit sampleWorldC3 "bkt" "Acme" "Q1 Call" "2024-05-01" "transcript"
          "https://api/events/1/liveTranscript" ⟨0, 0, 0, [], []⟩).1.processed
          = (⟨0, 0, 0, [], []⟩ : PState).processed + 1
      ∧ (runUnit sampleWorldC3 "bkt" "Acme" "Q1 Call" "2024-05-01" "transcript"
          "https://api/events/1/liveTranscript" ⟨0, 0, 0, [], []⟩).1.trace
          = (⟨0, 0, 0, [], []⟩ : PState).trace
            ++ [Action.fetchTranscript "https://api/events/1/liveTranscript"]) :=
  ⟨rfl, transcript_no_indirection sampleWorldC3 "https://api/events/1/liveTranscript"
    "bkt" "Acme" "Q1 Call" "2024-05-01" ⟨0, 0, 0, [], []⟩ rfl⟩

/-- C5 counterexample: on a company name containing the path separator, the
source key replaces it with an underscore, where the claim's reading (path
unsafe characters stripped from the company segment) removes it. -/
theorem format_s3_key_counterexample :
    format_s3_key "Acme/Corp" "2024-03-05T00:00:00" "slides" "Q1 Slides.pdf"
      = "acme_corp/2024-03-05/slides/q1_slides.pdf"
    ∧ format_s3_key_specReading "Acme/Corp" "2024-03-05T00:00:00" "slides"
        "Q1 Slides.pdf"
      = "acmecorp/2024-03-05/slides/q1_slides.pdf"
    ∧ format_s3_key "Acme/Corp" "2024-03-05T00:00:00" "slides" "Q1 Slides.pdf"
      ≠ format_s3_key_specReading "Acme/Corp" "2024-03-05T00:00:00" "slides"
          "Q1 Slides.pdf" := by
  decide

theorem toLower_ne_sep (b : Char) (hb1 : b ≠ '/') (hb2 : b ≠ ' ') :
    Char.toLower b ≠ '/' ∧ Char.toLower b ≠ ' ' := by
  unfold Char.toLower
  by_cases h : Char.toNat b ≥ 65 ∧ Char.toNat b ≤ 90
  · rw [if_pos h]
    obtain ⟨h1, h2⟩ := h
    set n := Char.toNat b with hn
    constructor <;> · interval_cases n <;> decide
  · rw [if_neg h]
    exact ⟨hb1, hb2⟩

theorem clean_company_no_sep (company_name : String) :
    '/' ∉ (clean_company company_name).data
    ∧ ' ' ∉ (clean_company company_name).data := by
  have key : ∀ x : Char,
      (if (if x = ' ' then '_' else x) = '/' then '_' else if x = ' ' then '_' else x) ≠ '/'
      ∧ (if (if x = ' ' then '_' else x) = '/' then '_' else if x = ' ' then '_' else x) ≠ ' ' := by
    intro x
    by_cases hx : x = ' '
    · subst hx
      decide
    · by_cases hsl : x = '/'
      · subst hsl
        decide
      · simp only [if_neg hx, if_neg hsl]
        exact ⟨hsl, hx⟩
  constructor
  · intro hmem
    have hmem' : '/' ∈ List.map Char.toLower
        (List.map (fun c => if c = '/' then '_' else c)
          (List.map (fun c => if c = ' ' then '_' else c) company_name.data)) := hmem
    obtain ⟨y, hy, hly⟩ := List.mem_map.mp hmem'
    obtain ⟨z, hz, rfl⟩ := List.mem_map.mp hy
    obtain ⟨x, hx, rfl⟩ := List.mem_map.mp hz
    exact (toLower_ne_sep _ (key x).1 (key x).2).1 hly
  · intro hmem
    have hmem' : ' ' ∈ List.map Char.toLower
        (List.map (fun c => if c = '/' then '_' else c)
          (List.map (fun c => if c = ' ' then '_' else c) company_name.data)) := hmem
    obtain ⟨y, hy, hly⟩ := List.mem_map.mp hmem'
    obtain ⟨z, hz, rfl⟩ := List.mem_map.mp hy
    obtain ⟨x, hx, rfl⟩ := List.mem_map.mp hz
    exact (toLower_ne_sep _ (key x).1 (key x).2).2 hly

/-- C5 amended: the key is the deterministic four-segment string
`company/date/category/filename` with lower-casing and underscore
substitution, where the path separator in the company segment is replaced
by an underscore rather than stripped; on the example inputs it evaluates
exactly as documented, and the cleaned company segment contains neither a
space nor a path separator. -/
theorem format_s3_key_amended :
    format_s3_key "Acme Corp" "2024-03-05T00:00:00" "slides" "Q1 Slides.pdf"
      = "acme_corp/2024-03-05/slides/q1_slides.pdf"
    ∧ (∀ c₁ c₂ d₁ d₂ t₁ t₂ f₁ f₂ : String,
        c₁ = c₂ → d₁ = d₂ → t₁ = t₂ → f₁ = f₂ →
        format_s3_key c₁ d₁ t₁ f₁ = format_s3_key c₂ d₂ t₂ f₂)
    ∧ format_s3_key "Acme/Corp" "2024-03-05T00:00:00" "slides" "Q1 Slides.pdf"
      = "acme_corp/2024-03-05/slides/q1_slides.pdf"
    ∧ (∀ company_name : String,
        '/' ∉ (clean_company company_name).data
        ∧ ' ' ∉ (clean_company company_name).data) := by
  refine ⟨by decide, ?_, by decide, clean_company_no_sep⟩
  intro c₁ c₂ d₁ d₂ t₁ t₂ f₁ f₂ hc hd ht hf
  rw [hc, hd, ht, hf]

theorem format_s3_key_amended_witness :
    ("Acme Corp" : String) = "Acme Corp"
    ∧ format_s3_key "Acme Corp" "2024-03-05T00:00:00" "slides" "Q1 Slides.pdf"
      = format_s3_key "Acme Corp" "2024-03-05T00:00:00" "slides" "Q1 Slides.pdf" :=
  ⟨rfl, format_s3_key_amended.2.1 "Acme Corp" "Acme Corp" "2024-03-05T00:00:00"
    "2024-03-05T00:00:00" "slides" "slides" "Q1 Slides.pdf" "Q1 Slides.pdf"
    rfl rfl rfl rfl⟩

/-- C4.  With a configured logo of positive intrinsic width, every emitted
page carries exactly one logo paint: at the configured opacity, centered on
the letter page, aspect preserved, shrunk to the maximum width exactly when
the logo is wider and left at intrinsic size otherwise; the page list has
one entry per page, the first included. -/
theorem watermark_on_every_page (pageCount : Nat) (img : LogoImage)
    (logo_opacity : ℚ) (hw : 0 < img.width) :
    (buildPages pageCount (some img) logo_opacity).length = pageCount
    ∧ ∀ page ∈ buildPages pageCount (some img) logo_opacity,
        ∃ d : DrawOp, page = [d]
          ∧ d.opacity = logo_opacity
          ∧ d.x + d.w / 2 = letterWidth / 2
          ∧ d.y + d.h / 2 = letterHeight / 2
          ∧ d.w * img.height = d.h * img.width
          ∧ (maxLogoWidth < img.width → d.w = maxLogoWidth)
          ∧ (¬ maxLogoWidth < img.width → d.w = img.width ∧ d.h = img.height)
          ∧ d.w ≤ img.width := by
  have hne : img.width ≠ 0 := ne_of_gt hw
  refine ⟨List.length_replicate _ _, fun page hpage => ?_⟩
  have hpg := List.eq_of_mem_replicate hpage
  subst hpg
  simp only [handle_nextPage]
  by_cases hcmp : img.width > maxLogoWidth
  · rw [if_pos hcmp, if_pos hcmp]
    refine ⟨_, rfl, rfl, ?_, ?_, ?_, fun _ => rfl, fun hc => absurd hcmp hc,
      le_of_lt hcmp⟩
    · show letterWidth / 2 - maxLogoWidth / 2 + maxLogoWidth / 2 = letterWidth / 2
      ring
    · show letterHeight / 2 - maxLogoWidth * (img.height / img.width) / 2
          + maxLogoWidth * (img.height / img.width) / 2 = letterHeight / 2
      ring
    · show maxLogoWidth * img.height
          = maxLogoWidth * (img.height / img.width) * img.width
      field_simp
  · rw [if_neg hcmp, if_neg hcmp]
    refine ⟨_, rfl, rfl, ?_, ?_, ?_, fun hc => absurd hc hcmp,
      fun _ => ⟨rfl, rfl⟩, le_refl _⟩
    · show letterWidth / 2 - img.width / 2 + img.width / 2 = letterWidth / 2
      ring
    · show letterHeight / 2 - img.height / 2 + img.height / 2 = letterHeight / 2
      ring
    · show img.width * img.height = img.height * img.width
      ring

theorem watermark_on_every_page_witness :
    (0 : ℚ) < sampleLogo.width
    ∧ ((buildPages 2 (some sampleLogo) (1 / 10)).length = 2
      ∧ ∀ page ∈ buildPages 2 (some sampleLogo) (1 / 10),
          ∃ d : DrawOp, page = [d]
            ∧ d.opacity = 1 / 10
            ∧ d.x + d.w / 2 = letterWidth / 2
            ∧ d.y + d.h / 2 = letterHeight / 2
            ∧ d.w * sampleLogo.height = d.h * sampleLogo.width
            ∧ (maxLogoWidth < sampleLogo.width → d.w = maxLogoWidth)
            ∧ (¬ maxLogoWidth < sampleLogo.width →
                d.w = sampleLogo.width ∧ d.h = sampleLogo.height)
            ∧ d.w ≤ sampleLogo.width) :=
  ⟨by decide,
    watermark_on_every_page 2 sampleLogo (1 / 10) (by decide)⟩

/-- C6.  An event passes the range gate exactly when its truncated date
lies in the inclusive interval, in the lexicographic string order that
coincides with calendar order on ISO dates; an event dated exactly on
either boundary (whatever its time of day) is selected, and concrete dates
one day outside either boundary are rejected. -/
theorem event_selection_boundaries (start_date end_date : String) (e : Event) :
    (eventInRange start_date end_date e = true
      ↔ start_date ≤ truncatedEventDate e ∧ truncatedEventDate e ≤ end_date)
    ∧ (start_date ≤ end_date → truncatedEventDate e = start_date →
        eventInRange start_date end_date e = true)
    ∧ (start_date ≤ end_date → truncatedEventDate e = end_date →
        eventInRange start_date end_date e = true)
    ∧ eventInRange "2024-01-01" "2024-12-31"
        ⟨some "2024-01-01T09:30:00", none, none, none, none⟩ = true
    ∧ eventInRange "2024-01-01" "2024-12-31"
        ⟨some "2024-12-31T23:59:59", none, none, none, none⟩ = true
    ∧ eventInRange "2024-01-01" "2024-12-31"
        ⟨some "2023-12-31T12:00:00", none, none, none, none⟩ = false
    ∧ eventInRange "2024-01-01" "2024-12-31"
        ⟨some "2025-01-01T00:00:00", none, none, none, none⟩ = false := by
  have hiff : ∀ sd ed : String, ∀ ev : Event,
      eventInRange sd ed ev = true
        ↔ sd ≤ truncatedEventDate ev ∧ truncatedEventDate ev ≤ ed := by
    intro sd ed ev
    rw [eventInRange, Bool.and_eq_true, strLe_iff, strLe_iff]
  refine ⟨hiff _ _ _, ?_, ?_, by decide, by decide, by decide, by decide⟩
  · intro hse heq
    rw [hiff, heq]
    exact ⟨le_refl _, hse⟩
  · intro hse heq
    rw [hiff, heq]
    exact ⟨hse, le_refl _⟩

theorem event_selection_boundaries_witness :
    ("2024-01-01" : String) ≤ "2024-12-31"
    ∧ truncatedEventDate sampleEventC6 = "2024-01-01"
    ∧ eventInRange "2024-01-01" "2024-12-31" sampleEventC6 = true :=
  ⟨(strLe_iff _ _).mp (by decide), by decide,
    (event_selection_boundaries "2024-01-01" "2024-12-31" sampleEventC6).2.1
      ((strLe_iff _ _).mp (by decide)) (by decide)⟩

/-- C7 counterexample: with every metadata fetch failing, control still
enters the counting selection loop (first trace entry) and the run then
terminates with the generic no-matching-documents warning produced by the
`total_files == 0` check after selection; no distinct pre-selection
"no valid identifiers" outcome exists. -/
theorem no_valid_identifiers_counterexample :
    (process_documents sampleWorldC7 ["AAA", "BBB"] "2024-01-01" "2024-12-31"
        ["slides", "report", "transcript"] "bkt").trace
      = [Action.selectionEntered, Action.warn noMatchingMsg]
    ∧ (process_documents sampleWorldC7 ["AAA", "BBB"] "2024-01-01" "2024-12-31"
        ["slides", "report", "transcript"] "bkt").outcome = Outcome.noMatching
    ∧ noMatchingMsg = "No matching documents found for the specified criteria." := by
  decide

/-- C7 amended: when every metadata fetch fails, the selection loop runs
over the empty payloads, counts a total of zero, and the run terminates
with the no-matching-documents warning, performing no per-document fetch,
render, or upload. -/
theorem all_fetches_fail_no_matching (w : World) (isin_list : List String)
    (start_date end_date : String) (selected_docs : List String)
    (bucket_name : String)
    (hfail : ∀ i ∈ isin_list, w.fetchCompany i = none) :
    (process_documents w isin_list start_date end_date selected_docs
        bucket_name).outcome = Outcome.noMatching
    ∧ (process_documents w isin_list start_date end_date selected_docs
        bucket_name).total = 0
    ∧ (process_documents w isin_list start_date end_date selected_docs
        bucket_name).processed = 0
    ∧ (process_documents w isin_list start_date end_date selected_docs
        bucket_name).trace
      = [Action.selectionEntered, Action.warn noMatchingMsg] := by
  have h0 : countTotal start_date end_date selected_docs
      (isin_list.map w.fetchCompany) = 0 := by
    rw [countTotal]
    apply List.sum_eq_zero
    intro x hx
    simp only [List.map_map, List.mem_map, Function.comp] at hx
    obtain ⟨i, hi, rfl⟩ := hx
    rw [hfail i hi]
    rfl
  simp only [process_documents]
  rw [if_pos h0]
  exact ⟨rfl, h0, rfl, rfl⟩

theorem all_fetches_fail_no_matching_witness :
    (∀ i ∈ (["AAA", "BBB"] : List String), sampleWorldC7.fetchCompany i = none)
    ∧ ((process_documents sampleWorldC7 ["AAA", "BBB"] "2024-01-01" "2024-12-31"
          ["slides"] "bkt").outcome = Outcome.noMatching
      ∧ (process_documents sampleWorldC7 ["AAA", "BBB"] "2024-01-01" "2024-12-31"
          ["slides"] "bkt").total = 0
      ∧ (process_documents sampleWorldC7 ["AAA", "BBB"] "2024-01-01" "2024-12-31"
          ["slides"] "bkt").processed = 0
      ∧ (process_documents sampleWorldC7 ["AAA", "BBB"] "2024-01-01" "2024-12-31"
          ["slides"] "bkt").trace
        = [Action.selectionEntered, Action.warn noMatchingMsg]) :=
  ⟨by decide,
    all_fetches_fail_no_matching sampleWorldC7 ["AAA", "BBB"] "2024-01-01"
      "2024-12-31" ["slides"] "bkt" (by decide)⟩

theorem foldl_filter_append {α β : Type} (p : α → Prop) [DecidablePred p]
    (g : α → List β) :
    ∀ (l : List α) (acc : List β),
      l.foldl (fun st a => if p a then st ++ g a else st) acc
        = acc ++ (l.filter (fun a => decide (p a))).flatMap g := by
  intro l
  induction l with
  | nil =>
    intro acc
    simp
  | cons a t ih =>
    intro acc
    by_cases h : p a
    · simp [List.foldl_cons, h, ih, List.filter_cons, List.append_assoc]
    · simp [List.foldl_cons, h, ih, List.filter_cons]

/-- The story is the header block followed by one styled paragraph and one
fixed spacer per non-blank paragraph, in input order. -/
theorem create_pdf_story_eq
    (company_name event_title event_date transcript_text : String) :
    create_pdf_story company_name event_title event_date transcript_text
      = [Flowable.para StyleName.header
            (headerText company_name event_title event_date),
          Flowable.spacer 1 30]
        ++ ((paragraphsOf transcript_text).filter
            (fun para => decide (pyStrip para ≠ ""))).flatMap
          (fun para =>
            [Flowable.para
                (if pyStartsWith '[' (pyStrip para) then StyleName.speaker
                  else StyleName.body) para,
              Flowable.spacer 1 6]) := by
  rw [create_pdf_story]
  exact foldl_filter_append _ _ (paragraphsOf transcript_text) _

theorem paraTexts_header_prefix (t : String) (l : List Flowable) :
    paraTexts ([Flowable.para StyleName.header t, Flowable.spacer 1 30] ++ l)
      = paraTexts l := by
  simp [paraTexts, List.filterMap_cons]

theorem paraTexts_bind (m : List String) :
    paraTexts (m.flatMap (fun para =>
      [Flowable.para
          (if pyStartsWith '[' (pyStrip para) then StyleName.speaker
            else StyleName.body) para,
        Flowable.spacer 1 6])) = m := by
  induction m with
  | nil => rfl
  | cons a t ih =>
    by_cases h : pyStartsWith '[' (pyStrip a)
    · simp [paraTexts, List.filterMap_cons, h] at ih ⊢
      exact ih
    · simp [paraTexts, List.filterMap_cons, h] at ih ⊢
      exact ih

/-- C8.  The story opens with the header block; after it, exactly the
non-blank paragraph units of the blank-line split appear, each rendered in
the speaker style exactly when its stripped text opens with a bracket and
in the body style otherwise, each followed by the fixed spacer, and the
paragraph texts appear in input order. -/
theorem create_pdf_story_paragraphs
    (company_name event_title event_date transcript_text : String) :
    create_pdf_story company_name event_title event_date transcript_text
      = [Flowable.para StyleName.header
            (headerText company_name event_title event_date),
          Flowable.spacer 1 30]
        ++ ((paragraphsOf transcript_text).filter
            (fun para => decide (pyStrip para ≠ ""))).flatMap
          (fun para =>
            [Flowable.para
                (if pyStartsWith '[' (pyStrip para) then StyleName.speaker
                  else StyleName.body) para,
              Flowable.spacer 1 6])
    ∧ paraTexts (create_pdf_story company_name event_title event_date transcript_text)
      = (paragraphsOf transcript_text).filter
          (fun para => decide (pyStrip para ≠ "")) := by
  refine ⟨create_pdf_story_eq _ _ _ _, ?_⟩
  rw [create_pdf_story_eq, paraTexts_header_prefix, paraTexts_bind]

/-- C9.  An event whose payload lacks `eventDate`, or carries it empty,
truncates to the empty date, which fails the lower-bound comparison against
any non-empty start date: the event is outside the range, contributes
nothing to the total, and the processing phase passes over it leaving the
state untouched and raising nothing. -/
theorem missing_event_date_excluded (start_date end_date : String) (e : Event)
    (hdate : e.eventDate = none ∨ e.eventDate = some "")
    (hstart : start_date ≠ "") :
    eventInRange start_date end_date e = false
    ∧ (∀ selected_docs, countEvent start_date end_date selected_docs e = 0)
    ∧ (∀ (w : World) (bucket_name company_name : String)
        (selected_docs : List String) (s : PState),
        processEvent w bucket_name company_name start_date end_date
          selected_docs e s = (s, none)) := by
  have htr : truncatedEventDate e = "" := by
    rcases hdate with h | h <;> simp [truncatedEventDate, h] <;> rfl
  have hfalse : eventInRange start_date end_date e = false := by
    rw [eventInRange, htr, strLe_empty_right start_date hstart]
    rfl
  refine ⟨hfalse, fun selected_docs => ?_, fun w b cn selected_docs st => ?_⟩
  · simp [countEvent, hfalse]
  · simp [processEvent, hfalse]

theorem missing_event_date_excluded_witness :
    (sampleEventC9.eventDate = none ∨ sampleEventC9.eventDate = some "")
    ∧ ("2024-01-01" : String) ≠ ""
    ∧ (eventInRange "2024-01-01" "2024-12-31" sampleEventC9 = false
      ∧ (∀ selected_docs,
          countEvent "2024-01-01" "2024-12-31" selected_docs sampleEventC9 = 0)
      ∧ (∀ (w : World) (bucket_name company_name : String)
          (selected_docs : List String) (s : PState),
          processEvent w bucket_name company_name "2024-01-01" "2024-12-31"
            selected_docs sampleEventC9 s = (s, none))) :=
  ⟨Or.inl rfl, by decide,
    missing_event_date_excluded "2024-01-01" "2024-12-31" sampleEventC9
      (Or.inl rfl) (by decide)⟩

/-- C10.  A company payload without `displayName` is processed under the
default name `unknown` and an event payload without `eventTitle` under
`Unknown Event`: the selected transcript unit goes through rendering and
upload with those defaults in the archive key, the upload filename, and
the rendered header, and the unit completes without an escaping
exception. -/
theorem missing_names_use_defaults (w : World)
    (bucket_name start_date end_date : String) (c : Company) (e : Event)
    (s : PState) (u txt : String)
    (hc : c.displayName = none) (he : e.eventTitle = none)
    (hev : c.events = [e]) (hurl : e.transcriptUrl = some u) (hu : u ≠ "")
    (hr : eventInRange start_date end_date e = true)
    (htxt : process_transcript_result w u = Except.ok txt) (htne : txt ≠ "") :
    processCompany w bucket_name start_date end_date ["transcript"] s (some c)
      = (recordUnit s
          (w.uploadOk (format_s3_key "unknown" (truncatedEventDate e) "transcript"
            (transcriptPdfFilename "Unknown Event")) bucket_name)
          [Action.fetchTranscript u,
            Action.render "unknown" "Unknown Event" (truncatedEventDate e),
            Action.upload (format_s3_key "unknown" (truncatedEventDate e)
              "transcript" (transcriptPdfFilename "Unknown Event"))],
        none)
    ∧ transcriptPdfFilename "Unknown Event" = "unknown_event_transcript.pdf"
    ∧ (create_pdf_story "unknown" "Unknown Event" (truncatedEventDate e) txt).head?
      = some (Flowable.para StyleName.header
          (headerText "unknown" "Unknown Event" (truncatedEventDate e))) := by
  have hdu : e.docUrl "transcript" = some u := by
    rw [Event.docUrl, if_neg (by decide), if_neg (by decide), if_pos rfl, hurl]
  have hdoc : processDoc w bucket_name "unknown" "Unknown Event"
      (truncatedEventDate e) "transcript" u
      = ([Action.fetchTranscript u,
          Action.render "unknown" "Unknown Event" (truncatedEventDate e),
          Action.upload (format_s3_key "unknown" (truncatedEventDate e)
            "transcript" (transcriptPdfFilename "Unknown Event"))],
        Except.ok (w.uploadOk (format_s3_key "unknown" (truncatedEventDate e)
          "transcript" (transcriptPdfFilename "Unknown Event")) bucket_name)) := by
    simp only [processDoc, htxt]
    rw [if_pos trivial, if_pos htne]
  have hstep : docStep w bucket_name "unknown" "Unknown Event"
      (truncatedEventDate e) e s "transcript"
      = (recordUnit s
          (w.uploadOk (format_s3_key "unknown" (truncatedEventDate e) "transcript"
            (transcriptPdfFilename "Unknown Event")) bucket_name)
          [Action.fetchTranscript u,
            Action.render "unknown" "Unknown Event" (truncatedEventDate e),
            Action.upload (format_s3_key "unknown" (truncatedEventDate e)
              "transcript" (transcriptPdfFilename "Unknown Event"))],
        none) := by
    simp only [docStep, hdu]
    rw [if_pos hu]
    simp only [runUnit, hdoc]
  have hevent : processEvent w bucket_name "unknown" start_date end_date
      ["transcript"] e s
      = (recordUnit s
          (w.uploadOk (format_s3_key "unknown" (truncatedEventDate e) "transcript"
            (transcriptPdfFilename "Unknown Event")) bucket_name)
          [Action.fetchTranscript u,
            Action.render "unknown" "Unknown Event" (truncatedEventDate e),
            Action.upload (format_s3_key "unknown" (truncatedEventDate e)
              "transcript" (transcriptPdfFilename "Unknown Event"))],
        none) := by
    simp only [processEvent]
    rw [if_pos hr]
    simp only [he, Option.getD_none]
    simp only [foldStop, hstep]
  refine ⟨?_, by decide, ?_⟩
  · simp only [processCompany, hev, hc, Option.getD_none]
    simp only [foldStop, hevent]
  · rw [create_pdf_story_eq]
    rfl

theorem missing_names_use_defaults_witness :
    sampleCompanyC10.displayName = none
    ∧ sampleEventC10.eventTitle = none
    ∧ sampleCompanyC10.events = [sampleEventC10]
    ∧ sampleEventC10.transcriptUrl = some "https://t10"
    ∧ ("https://t10" : String) ≠ ""
    ∧ eventInRange "2024-01-01" "2024-12-31" sampleEventC10 = true
    ∧ process_transcript_result sampleWorldC10 "https://t10"
        = Except.ok "Hello world"
    ∧ ("Hello world" : String) ≠ ""
    ∧ (processCompany sampleWorldC10 "bkt" "2024-01-01" "2024-12-31"
          ["transcript"] ⟨0, 0, 0, [], []⟩ (some sampleCompanyC10)
        = (recordUnit ⟨0, 0, 0, [], []⟩
            (sampleWorldC10.uploadOk (format_s3_key "unknown"
              (truncatedEventDate sampleEventC10) "transcript"
              (transcriptPdfFilename "Unknown Event")) "bkt")
            [Action.fetchTranscript "https://t10",
              Action.render "unknown" "Unknown Event"
                (truncatedEventDate sampleEventC10),
              Action.upload (format_s3_key "unknown"
                (truncatedEventDate sampleEventC10) "transcript"
                (transcriptPdfFilename "Unknown Event"))],
          none)
      ∧ transcriptPdfFilename "Unknown Event" = "unknown_event_transcript.pdf"
      ∧ (create_pdf_story "unknown" "Unknown Event"
            (truncatedEventDate sampleEventC10) "Hello world").head?
        = some (Flowable.para StyleName.header
            (headerText "unknown" "Unknown Event"
              (truncatedEventDate sampleEventC10)))) :=
  ⟨rfl, rfl, rfl, rfl, by decide, by decide, rfl, by decide,
    missing_names_use_defaults sampleWorldC10 "bkt" "2024-01-01" "2024-12-31"
      sampleCompanyC10 sampleEventC10 ⟨0, 0, 0, [], []⟩ "https://t10"
      "Hello world" rfl rfl rfl rfl (by decide) (by decide) rfl (by decide)⟩
end Quartr
